import Mathlib

/-!
Verification of the plugin controller of py-gpt
(`src/pygpt_net/controller/plugins/__init__.py`, class `Plugins`).

The controller keeps an in-memory mapping `self.enabled : dict[str, bool]`
and mediates enable/disable transitions against an external plugin Registry
(`window.core.plugins`), an event dispatcher and GUI widgets.  We embed the
controller as a state machine: the state holds the registry and the enabled
mapping; every method returns the next state together with the trace of
external effects it performs (registry mutators, dispatched events, UI
updates).  Python dicts are modelled as association lists with unique keys,
with assignment replacing the first matching key in place (else appending),
exactly the observable behaviour of dict assignment.
-/

namespace PyGpt

/-- A command batch item: a mapping (Python dict) from string keys to string
values; `apply_cmds` only inspects key membership of `"cmd"`. -/
abbrev Cmd := List (String × String)

/-- Modelled from the spec (§6 Plugin Registry contract, external collaborator
not under src/): a plugin descriptor with stable `id`, display `name` and list
of type tags (`plugin.type` in the source). -/
structure PluginDesc where
  id : String
  name : String
  type : List String
  deriving DecidableEq, Repr

/-- Modelled from the spec (§6, external collaborator): the plugin Registry
(`window.core.plugins`), holding the ordered registered plugin definitions
and the fixed list of recognized type tags (`allowed_types`). -/
structure Registry where
  plugins : List PluginDesc
  allowed_types : List String
  deriving DecidableEq, Repr

/-- Modelled from the spec (§6): `is_registered(id)` — Registry reports `id`
registered iff some registered plugin definition carries that id. -/
def Registry.is_registered (r : Registry) (id : String) : Bool :=
  r.plugins.any (fun p => p.id == id)

/-- Modelled from the spec (§6): `get_ids()` — ordered sequence of registered
plugin ids. -/
def Registry.get_ids (r : Registry) : List String :=
  r.plugins.map (fun p => p.id)

/-- Modelled from the spec (§6): `get(id)` — lookup of a plugin descriptor by
id (first match; total here, returning a dummy descriptor when absent, a case
the controller never exercises because ids come from `get_ids`). -/
def Registry.get (r : Registry) (id : String) : PluginDesc :=
  (r.plugins.find? (fun p => p.id == id)).getD ⟨"", "", []⟩

/-- Modelled from the spec (§4.1, §6): `unregister(id)` instructs the Registry
to drop the plugin definition for `id`. -/
def Registry.unregister (r : Registry) (id : String) : Registry :=
  { r with plugins := r.plugins.filter (fun p => p.id != id) }

/-- Association-list lookup, the observable behaviour of
`d[k]` / `k in d` on a Python dict. -/
def dictGet? : List (String × Bool) → String → Option Bool
  | [], _ => none
  | kv :: t, k => if kv.1 == k then some kv.2 else dictGet? t k

/-- Python dict assignment `d[k] = v`: replace the value at the first
occurrence of the key in place, else append the new entry at the end. -/
def dictSet : List (String × Bool) → String → Bool → List (String × Bool)
  | [], k, v => [(k, v)]
  | kv :: t, k, v => if kv.1 == k then (k, v) :: t else kv :: dictSet t k v

/-- Python dict `d.pop(k)`: drop the entry for key `k` (on a dict keys are
unique, so dropping every occurrence is the same operation). -/
def dictPop (d : List (String × Bool)) (k : String) : List (String × Bool) :=
  d.filter (fun kv => kv.1 != k)

/-- The controller state: the external Registry, the controller-owned
`self.enabled` mapping, and the set of plugin ids present in the UI plugins
menu (`window.ui.menu` keyed lookups, opaque UI state). -/
structure CState where
  registry : Registry
  enabled : List (String × Bool)
  menu : List String
  deriving DecidableEq, Repr

/-- One external side effect performed by a controller method: a Registry
mutator call, a dispatched event, or a UI update. -/
inductive Effect where
  | registryEnable (id : String)
  | registryDisable (id : String)
  | registryUnregister (id : String)
  | dispatch (name : String) (value : String)
  | audioUpdate
  | setText (s : String)
  | setToolTip (s : String)
  | menuSetChecked (id : String) (v : Bool)
  | setVisible (element : String) (v : Bool)
  | updateTokens
  | cmdExecute (commands : List Cmd) (ctx : Nat)
  deriving DecidableEq, Repr

/-- `Plugins.is_enabled(id)`: if the Registry reports `id` registered and the
mapping has an entry, return it; false otherwise. -/
def is_enabled (st : CState) (id : String) : Bool :=
  if st.registry.is_registered id then
    match dictGet? st.enabled id with
    | some v => v
    | none => false
  else false

/-- `Plugins.has_type(id, type)`: true iff `id` is registered and `type`
occurs in the plugin descriptor's tag list. -/
def has_type (st : CState) (id ty : String) : Bool :=
  if st.registry.is_registered id then
    (st.registry.get id).type.contains ty
  else false

/-- `Plugins.is_type_enabled(type)`: scan of the registered ids with early
exit — true iff some id has the tag and is enabled. -/
def is_type_enabled (st : CState) (ty : String) : Bool :=
  st.registry.get_ids.any (fun id =>
    (st.registry.get id).type.contains ty && is_enabled st id)

/-- `Plugins.handle_enabled_types()`: for each recognized tag recompute the
visibility of the corresponding UI addon.  The `audio.output` show branch is
inert in the source (`pass` with the `setVisible(True)` call commented out). -/
def handle_enabled_types (st : CState) : List Effect :=
  st.registry.allowed_types.flatMap (fun ty =>
    if ty == "audio.input" then
      (if is_type_enabled st ty then [Effect.setVisible "audio.input" true]
       else [Effect.setVisible "audio.input" false])
    else if ty == "audio.output" then
      (if is_type_enabled st ty then []
       else [Effect.setVisible "audio.output" false])
    else [])

/-- `Plugins.update()`: uncheck every plugins-menu action, re-check the ones
whose mapping entry is true, then re-run `handle_enabled_types`. -/
def update (st : CState) : List Effect :=
  (st.menu.map (fun id => Effect.menuSetChecked id false))
    ++ (st.enabled.foldl
          (fun acc kv => if kv.2 then acc ++ [Effect.menuSetChecked kv.1 true] else acc) [])
    ++ handle_enabled_types st

/-- `Plugins.update_info(tr)`: build the joined names of the enabled plugins
as a tooltip and a `"+ <count> <suffix>"` label (empty when the count is
zero); `tr` is the external localization lookup `trans`. -/
def update_info (tr : String → String) (st : CState) : List Effect :=
  let enabled_list := st.registry.get_ids.foldl
    (fun acc id => if is_enabled st id then acc ++ [(st.registry.get id).name] else acc) []
  let tooltip := String.intercalate " + " enabled_list
  let c := if st.registry.get_ids.length > 0 then
      st.registry.get_ids.foldl (fun n id => if is_enabled st id then n + 1 else n) 0
    else 0
  let count_str := if c > 0 then "+ " ++ toString c ++ " " ++ tr "chatbox.plugins" else ""
  [Effect.setText count_str, Effect.setToolTip tooltip]

/-- `Plugins.enable(id)`: when registered, set the mapping entry to true,
activate in the Registry, dispatch the `enable` event and refresh the audio
menu for audio-tagged plugins; always refresh info and menu afterwards. -/
def enable (tr : String → String) (st : CState) (id : String) : CState × List Effect :=
  if st.registry.is_registered id then
    let st' : CState := { st with enabled := dictSet st.enabled id true }
    let effs := [Effect.registryEnable id, Effect.dispatch "enable" id]
      ++ (if has_type st' id "audio.input" || has_type st' id "audio.output" then
            [Effect.audioUpdate] else [])
    (st', effs ++ update_info tr st' ++ update st')
  else
    (st, update_info tr st ++ update st)

/-- `Plugins.disable(id)`: symmetric to `enable`, setting the entry to false,
deactivating in the Registry and dispatching the `disable` event. -/
def disable (tr : String → String) (st : CState) (id : String) : CState × List Effect :=
  if st.registry.is_registered id then
    let st' : CState := { st with enabled := dictSet st.enabled id false }
    let effs := [Effect.registryDisable id, Effect.dispatch "disable" id]
      ++ (if has_type st' id "audio.input" || has_type st' id "audio.output" then
            [Effect.audioUpdate] else [])
    (st', effs ++ update_info tr st' ++ update st')
  else
    (st, update_info tr st ++ update st)

/-- `Plugins.toggle(id)`: when registered, disable if currently enabled else
enable; always re-run the type-visibility reconciliation and the token
refresh afterwards. -/
def toggle (tr : String → String) (st : CState) (id : String) : CState × List Effect :=
  let step :=
    if st.registry.is_registered id then
      if is_enabled st id then disable tr st id else enable tr st id
    else (st, [])
  (step.1, step.2 ++ handle_enabled_types step.1 ++ [Effect.updateTokens])

/-- `Plugins.unregister(id)`: drop the plugin definition from the Registry
and remove the mapping entry if present. -/
def unregister (st : CState) (id : String) : CState × List Effect :=
  let r' := st.registry.unregister id
  let enabled' := if st.enabled.any (fun kv => kv.1 == id)
    then dictPop st.enabled id else st.enabled
  ({ st with registry := r', enabled := enabled' }, [Effect.registryUnregister id])

/-- `Plugins.load_config()`: replay the persisted `plugins_enabled` mapping
in stored order, calling `enable` for every id whose stored flag is true. -/
def load_config (tr : String → String) (st : CState) (cfg : List (String × Bool)) :
    CState × List Effect :=
  cfg.foldl
    (fun acc kv =>
      if kv.2 then
        let r := enable tr acc.1 kv.1
        (r.1, acc.2 ++ r.2)
      else acc)
    (st, [])

/-- `Plugins.apply_cmds(ctx, cmds)`: keep the batch items holding a `"cmd"`
key; do nothing when none remain, else dispatch a single `cmd.execute` event
carrying the kept commands and the context. -/
def apply_cmds (st : CState) (ctx : Nat) (cmds : List Cmd) : CState × List Effect :=
  let commands := cmds.foldl
    (fun acc cmd => if cmd.any (fun kv => kv.1 == "cmd") then acc ++ [cmd] else acc) []
  if commands.length == 0 then (st, [])
  else (st, [Effect.cmdExecute commands ctx])

/-- One controller operation, for reachability statements. -/
inductive Op where
  | enable (id : String)
  | disable (id : String)
  | toggle (id : String)
  | unregister (id : String)
  | load_config (cfg : List (String × Bool))
  deriving DecidableEq, Repr

/-- Apply one operation to a controller state. -/
def applyOp (tr : String → String) (st : CState) : Op → CState × List Effect
  | Op.enable id => enable tr st id
  | Op.disable id => disable tr st id
  | Op.toggle id => toggle tr st id
  | Op.unregister id => unregister st id
  | Op.load_config cfg => load_config tr st cfg

/-- Run a sequence of controller operations, keeping only the state. -/
def run (tr : String → String) (st : CState) (ops : List Op) : CState :=
  ops.foldl (fun s op => (applyOp tr s op).1) st

/-- The controller state right after `__init__`: `self.enabled = {}`. -/
def initState (r : Registry) (menu : List String) : CState :=
  { registry := r, enabled := [], menu := menu }

/-! ### Dictionary lemmas -/

theorem dictGet?_dictSet_self (d : List (String × Bool)) (k : String) (v : Bool) :
    dictGet? (dictSet d k v) k = some v := by
  induction d with
  | nil => simp [dictSet, dictGet?]
  | cons kv t ih =>
    simp only [dictSet]
    split
    · simp [dictGet?]
    · simp [dictGet?, *]

theorem dictGet?_dictPop_self (d : List (String × Bool)) (k : String) :
    dictGet? (dictPop d k) k = none := by
  induction d with
  | nil => simp [dictPop, dictGet?]
  | cons kv t ih =>
    by_cases h : kv.1 = k
    · simpa [dictPop, h] using ih
    · simpa [dictPop, dictGet?, h] using ih

/-- The append-accumulating loops of the source (`for x: if p(x):
acc.append(f(x))`) compute a map over a filter. -/
theorem foldl_append_filter_map {α β : Type} (l : List α) (p : α → Bool) (f : α → β)
    (acc : List β) :
    l.foldl (fun a x => if p x then a ++ [f x] else a) acc = acc ++ (l.filter p).map f := by
  induction l generalizing acc with
  | nil => simp
  | cons x t ih =>
    simp only [List.foldl_cons, List.filter_cons]
    by_cases h : p x
    · simp [h, ih]
    · simp [h, ih]

/-- Every effect emitted by `handle_enabled_types` is a visibility update. -/
theorem mem_handle_enabled_types (st : CState) (e : Effect)
    (he : e ∈ handle_enabled_types st) : ∃ el b, e = Effect.setVisible el b := by
  simp only [handle_enabled_types, List.mem_flatMap] at he
  obtain ⟨ty, _, hmem⟩ := he
  split at hmem
  · split at hmem <;> simp at hmem <;> exact ⟨_, _, hmem⟩
  · split at hmem
    · split at hmem
      · simp at hmem
      · simp at hmem
        exact ⟨_, _, hmem⟩
    · simp at hmem

/-- `update` never dispatches an event. -/
theorem dispatch_not_mem_update (st : CState) (n v : String) :
    Effect.dispatch n v ∉ update st := by
  intro hmem
  simp only [update, List.mem_append] at hmem
  rcases hmem with (h | h) | h
  · simp [List.mem_map] at h
  · rw [foldl_append_filter_map st.enabled (fun kv => kv.2)
      (fun kv => Effect.menuSetChecked kv.1 true) []] at h
    simp [List.mem_map] at h
  · obtain ⟨el, b, hb⟩ := mem_handle_enabled_types st _ h
    exact Effect.noConfusion hb

/-- `update_info` never dispatches an event. -/
theorem dispatch_not_mem_update_info (tr : String → String) (st : CState) (n v : String) :
    Effect.dispatch n v ∉ update_info tr st := by
  intro hmem
  simp [update_info] at hmem

/-! ### Frame lemmas: which operations leave which components untouched -/

theorem enable_registry (tr : String → String) (st : CState) (id : String) :
    (enable tr st id).1.registry = st.registry := by
  simp only [enable]
  split <;> rfl

theorem disable_registry (tr : String → String) (st : CState) (id : String) :
    (disable tr st id).1.registry = st.registry := by
  simp only [disable]
  split <;> rfl

theorem toggle_registry (tr : String → String) (st : CState) (id : String) :
    (toggle tr st id).1.registry = st.registry := by
  simp only [toggle]
  split
  · split
    · exact disable_registry tr st id
    · exact enable_registry tr st id
  · rfl

theorem is_enabled_set (st : CState) (p : String) (v : Bool)
    (h : st.registry.is_registered p = true) :
    is_enabled { st with enabled := dictSet st.enabled p v } p = v := by
  simp [is_enabled, h, dictGet?_dictSet_self]

/-! ### Example states used by the witnesses -/

/-- An example registry with two registered plugins. -/
def exReg : Registry :=
  { plugins := [⟨"p1", "Alpha", ["audio.input"]⟩, ⟨"p2", "Beta", []⟩],
    allowed_types := ["audio.input", "audio.output"] }

/-- An example controller state over `exReg` with nothing enabled yet. -/
def exSt : CState := { registry := exReg, enabled := [], menu := ["p1", "p2"] }

/-! ### Claims -/

/-- C1: for every registered plugin id `p`, `enable(p)` makes
`is_enabled(p)` true and `disable(p)` makes it false. -/
theorem enable_sets_disable_clears (tr : String → String) (st : CState) (p : String)
    (h : st.registry.is_registered p = true) :
    is_enabled (enable tr st p).1 p = true ∧ is_enabled (disable tr st p).1 p = false := by
  constructor
  · have : (enable tr st p).1 = { st with enabled := dictSet st.enabled p true } := by
      simp [enable, h]
    rw [this, is_enabled_set st p true h]
  · have : (disable tr st p).1 = { st with enabled := dictSet st.enabled p false } := by
      simp [disable, h]
    rw [this, is_enabled_set st p false h]

/-- C1 witness: instantiated on the concrete example state at plugin `p1`. -/
theorem enable_sets_disable_clears_witness :
    exSt.registry.is_registered "p1" = true ∧
    (is_enabled (enable (fun s => s) exSt "p1").1 "p1" = true ∧
     is_enabled (disable (fun s => s) exSt "p1").1 "p1" = false) :=
  ⟨by decide, enable_sets_disable_clears (fun s => s) exSt "p1" (by decide)⟩

/-- C2: on an id the Registry does not report registered, `enable`, `disable`
and `toggle` leave the state unchanged, dispatch no event, `is_enabled` is
false before and after, and the summary/visibility refresh still runs (the
effects are exactly the refresh effects). -/
theorem unregistered_ops_noop (tr : String → String) (st : CState) (id : String)
    (h : st.registry.is_registered id = false) :
    is_enabled st id = false ∧
    (enable tr st id).1 = st ∧ (disable tr st id).1 = st ∧ (toggle tr st id).1 = st ∧
    (enable tr st id).2 = update_info tr st ++ update st ∧
    (disable tr st id).2 = update_info tr st ++ update st ∧
    (toggle tr st id).2 = handle_enabled_types st ++ [Effect.updateTokens] ∧
    (∀ n v, Effect.dispatch n v ∉ (enable tr st id).2) ∧
    (∀ n v, Effect.dispatch n v ∉ (disable tr st id).2) ∧
    (∀ n v, Effect.dispatch n v ∉ (toggle tr st id).2) := by
  have hen : enable tr st id = (st, update_info tr st ++ update st) := by
    simp [enable, h]
  have hdis : disable tr st id = (st, update_info tr st ++ update st) := by
    simp [disable, h]
  have htog : toggle tr st id = (st, handle_enabled_types st ++ [Effect.updateTokens]) := by
    simp [toggle, h]
  refine ⟨by simp [is_enabled, h], by rw [hen], by rw [hdis], by rw [htog],
    by rw [hen], by rw [hdis], by rw [htog], ?_, ?_, ?_⟩
  · intro n v hmem
    rw [hen] at hmem
    rcases List.mem_append.mp hmem with hm | hm
    · exact dispatch_not_mem_update_info tr st n v hm
    · exact dispatch_not_mem_update st n v hm
  · intro n v hmem
    rw [hdis] at hmem
    rcases List.mem_append.mp hmem with hm | hm
    · exact dispatch_not_mem_update_info tr st n v hm
    · exact dispatch_not_mem_update st n v hm
  · intro n v hmem
    rw [htog] at hmem
    rcases List.mem_append.mp hmem with hm | hm
    · obtain ⟨el, b, hb⟩ := mem_handle_enabled_types st _ hm
      exact Effect.noConfusion hb
    · simp at hm

/-- C2 witness: instantiated at the unknown id `ghost` on the example
state. -/
theorem unregistered_ops_noop_witness :
    exSt.registry.is_registered "ghost" = false ∧
    (enable (fun s => s) exSt "ghost").1 = exSt ∧
    is_enabled exSt "ghost" = false :=
  ⟨by decide, (unregistered_ops_noop (fun s => s) exSt "ghost" (by decide)).2.1,
    (unregistered_ops_noop (fun s => s) exSt "ghost" (by decide)).1⟩

/-- C3: `apply_cmds` keeps exactly the batch items holding a `"cmd"` key in
their original relative order; it publishes no event when none remain, and
otherwise exactly one `cmd.execute` event carrying the filtered list and the
given context. -/
theorem apply_cmds_events (st : CState) (ctx : Nat) (cmds : List Cmd) :
    (apply_cmds st ctx cmds).2 =
      (if (cmds.filter (fun cmd => cmd.any (fun kv => kv.1 == "cmd"))).isEmpty then []
       else [Effect.cmdExecute
         (cmds.filter (fun cmd => cmd.any (fun kv => kv.1 == "cmd"))) ctx]) := by
  simp only [apply_cmds]
  have hfold := foldl_append_filter_map cmds (fun cmd => cmd.any (fun kv => kv.1 == "cmd"))
    (fun c => c) []
  simp only [List.map_id'] at hfold
  rw [hfold]
  cases cmds.filter (fun cmd => cmd.any (fun kv => kv.1 == "cmd")) <;> simp

/-- C10: `apply_cmds` never changes the controller state, in particular the
enabled mapping: forwarding commands has no effect on plugin state. -/
theorem apply_cmds_state_frame (st : CState) (ctx : Nat) (cmds : List Cmd) :
    (apply_cmds st ctx cmds).1 = st ∧ (apply_cmds st ctx cmds).1.enabled = st.enabled := by
  have h : (apply_cmds st ctx cmds).1 = st := by
    simp only [apply_cmds]
    split <;> rfl
  exact ⟨h, by rw [h]⟩

theorem toggle_state_of_enabled (tr : String → String) (st : CState) (p : String)
    (h : st.registry.is_registered p = true) (hb : is_enabled st p = true) :
    (toggle tr st p).1 = { st with enabled := dictSet st.enabled p false } := by
  simp [toggle, h, hb, disable]

theorem toggle_state_of_disabled (tr : String → String) (st : CState) (p : String)
    (h : st.registry.is_registered p = true) (hb : is_enabled st p = false) :
    (toggle tr st p).1 = { st with enabled := dictSet st.enabled p true } := by
  simp [toggle, h, hb, enable]

/-- C4: toggling a registered plugin twice in a row restores the enabled
state it had before the first toggle. -/
theorem toggle_toggle_id (tr : String → String) (st : CState) (p : String)
    (h : st.registry.is_registered p = true) :
    is_enabled (toggle tr (toggle tr st p).1 p).1 p = is_enabled st p := by
  cases hb : is_enabled st p with
  | false =>
    have h1 := toggle_state_of_disabled tr st p h hb
    set st1 : CState := { st with enabled := dictSet st.enabled p true } with hst1
    have hreg1 : st1.registry.is_registered p = true := h
    have he1 : is_enabled st1 p = true := is_enabled_set st p true h
    rw [h1, toggle_state_of_enabled tr st1 p hreg1 he1]
    exact is_enabled_set st1 p false hreg1
  | true =>
    have h1 := toggle_state_of_enabled tr st p h hb
    set st1 : CState := { st with enabled := dictSet st.enabled p false } with hst1
    have hreg1 : st1.registry.is_registered p = true := h
    have he1 : is_enabled st1 p = false := is_enabled_set st p false h
    rw [h1, toggle_state_of_disabled tr st1 p hreg1 he1]
    exact is_enabled_set st1 p true hreg1

/-- C4 witness: instantiated at plugin `p1` of the example state. -/
theorem toggle_toggle_id_witness :
    exSt.registry.is_registered "p1" = true ∧
    is_enabled (toggle (fun s => s) (toggle (fun s => s) exSt "p1").1 "p1").1 "p1" =
      is_enabled exSt "p1" :=
  ⟨by decide, toggle_toggle_id (fun s => s) exSt "p1" (by decide)⟩

theorem dictGet?_eq_none_iff (d : List (String × Bool)) (k : String) :
    dictGet? d k = none ↔ d.any (fun kv => kv.1 == k) = false := by
  induction d with
  | nil => simp [dictGet?]
  | cons kv t ih =>
    by_cases h : kv.1 = k
    · simp [dictGet?, h]
    · simp [dictGet?, h, ih]

theorem is_registered_unregister_self (r : Registry) (id : String) :
    (r.unregister id).is_registered id = false := by
  simp only [Registry.unregister, Registry.is_registered]
  rw [List.any_eq_false]
  intro p hp
  rw [List.mem_filter] at hp
  simp only [bne_iff_ne, ne_eq, decide_eq_true_eq] at hp
  simp [hp.2]

theorem unregister_enabled_eq (st : CState) (id : String) :
    (unregister st id).1.enabled = dictPop st.enabled id := by
  simp only [unregister]
  split
  · rfl
  · rename_i hnot
    rw [Bool.not_eq_true] at hnot
    rw [List.any_eq_false] at hnot
    unfold dictPop
    rw [List.filter_eq_self.mpr]
    intro kv hkv
    simpa using hnot kv hkv

/-- C5: `unregister(p)` removes `p` from the enabled mapping (a no-op when
it was never present, never a failure), and afterwards `is_enabled(p)` is
false. -/
theorem unregister_removes (st : CState) (id : String) :
    (unregister st id).1.enabled = dictPop st.enabled id ∧
    dictGet? (unregister st id).1.enabled id = none ∧
    is_enabled (unregister st id).1 id = false ∧
    (dictGet? st.enabled id = none → (unregister st id).1.enabled = st.enabled) := by
  have hpop := unregister_enabled_eq st id
  refine ⟨hpop, ?_, ?_, ?_⟩
  · rw [hpop]
    exact dictGet?_dictPop_self st.enabled id
  · have hreg : (unregister st id).1.registry = st.registry.unregister id := rfl
    simp [is_enabled, hreg, is_registered_unregister_self]
  · intro hnone
    rw [hpop]
    unfold dictPop
    rw [List.filter_eq_self.mpr]
    intro kv hkv
    rw [dictGet?_eq_none_iff, List.any_eq_false] at hnone
    simpa using hnone kv hkv

/-- An example controller state over `exReg` with `p1` enabled. -/
def exSt2 : CState := { registry := exReg, enabled := [("p1", true)], menu := ["p1", "p2"] }

/-- C5 witness: removal of a present entry and the never-present no-op, on
a concrete state with `p1` enabled. -/
theorem unregister_removes_witness :
    is_enabled (unregister exSt2 "p1").1 "p1" = false ∧
    (unregister exSt2 "ghost").1.enabled = [("p1", true)] :=
  ⟨(unregister_removes exSt2 "p1").2.2.1,
   (unregister_removes exSt2 "ghost").2.2.2 (by decide)⟩

theorem mem_get_ids_iff (r : Registry) (id : String) :
    id ∈ r.get_ids ↔ r.is_registered id = true := by
  simp [Registry.get_ids, Registry.is_registered, List.any_eq_true]

/-- C7: `is_type_enabled(t)` is true iff some registered plugin carries the
tag `t` and is enabled; in particular it is false when every plugin carrying
`t` is disabled. -/
theorem is_type_enabled_iff (st : CState) (ty : String) :
    is_type_enabled st ty = true ↔
      ∃ id, st.registry.is_registered id = true ∧
        (st.registry.get id).type.contains ty = true ∧ is_enabled st id = true := by
  simp only [is_type_enabled, List.any_eq_true]
  constructor
  · rintro ⟨id, hid, hcond⟩
    rw [Bool.and_eq_true] at hcond
    exact ⟨id, (mem_get_ids_iff _ _).mp hid, hcond.1, hcond.2⟩
  · rintro ⟨id, hreg, htag, hen⟩
    exact ⟨id, (mem_get_ids_iff _ _).mpr hreg, by rw [Bool.and_eq_true]; exact ⟨htag, hen⟩⟩

/-- C7 witness: on the concrete state with `p1` (tagged `audio.input`)
enabled, the existential direction produces a true tag query. -/
theorem is_type_enabled_iff_witness :
    is_type_enabled exSt2 "audio.input" = true :=
  (is_type_enabled_iff exSt2 "audio.input").mpr ⟨"p1", by decide, by decide, by decide⟩

/-- Counting loops of the source (`for x: if p(x): c += 1`) compute the
length of a filter. -/
theorem foldl_count {α : Type} (l : List α) (p : α → Bool) (n : Nat) :
    l.foldl (fun m x => if p x then m + 1 else m) n = n + (l.filter p).length := by
  induction l generalizing n with
  | nil => simp
  | cons x t ih =>
    simp only [List.foldl_cons, List.filter_cons]
    by_cases h : p x
    · simp [h, ih]
      omega
    · simp [h, ih]

/-- Follows the spec's words (§4.3): the names of all currently enabled,
registered plugins, in Registry id order. -/
def specEnabledNames (st : CState) : List String :=
  (st.registry.get_ids.filter (fun id => is_enabled st id)).map
    (fun id => (st.registry.get id).name)

/-- Follows the spec's words (§4.3): the count of enabled plugins. -/
def specEnabledCount (st : CState) : Nat :=
  (st.registry.get_ids.filter (fun id => is_enabled st id)).length

/-- C8: `update_info` sets the tooltip to the enabled plugins' names joined
by `" + "` in Registry id order, and the display text to
`"+ <count> <suffix>"` when the enabled count is positive and `""` when it
is zero; with no plugin enabled both strings are empty. -/
theorem update_info_spec (tr : String → String) (st : CState) :
    update_info tr st =
      [Effect.setText (if 0 < specEnabledCount st then
          "+ " ++ toString (specEnabledCount st) ++ " " ++ tr "chatbox.plugins" else ""),
       Effect.setToolTip (String.intercalate " + " (specEnabledNames st))] ∧
    ((∀ id ∈ st.registry.get_ids, is_enabled st id = false) →
      update_info tr st = [Effect.setText "", Effect.setToolTip ""]) := by
  have hnames := foldl_append_filter_map st.registry.get_ids (fun id => is_enabled st id)
    (fun id => (st.registry.get id).name) []
  have hc := foldl_count st.registry.get_ids (fun id => is_enabled st id) 0
  have hmain : update_info tr st =
      [Effect.setText (if 0 < specEnabledCount st then
          "+ " ++ toString (specEnabledCount st) ++ " " ++ tr "chatbox.plugins" else ""),
       Effect.setToolTip (String.intercalate " + " (specEnabledNames st))] := by
    simp only [update_info, hnames, hc, List.nil_append, Nat.zero_add,
      specEnabledNames, specEnabledCount]
    cases hids : st.registry.get_ids with
    | nil => simp
    | cons x t => simp [Nat.pos_iff_ne_zero]
  refine ⟨hmain, fun hall => ?_⟩
  have hfil : st.registry.get_ids.filter (fun id => is_enabled st id) = [] := by
    rw [List.filter_eq_nil_iff]
    intro id hid
    simp [hall id hid]
  rw [hmain]
  simp [specEnabledCount, specEnabledNames, hfil, String.intercalate]

/-- C8 witness: on the example state with nothing enabled, both display text
and tooltip are empty. -/
theorem update_info_spec_witness :
    update_info (fun s => s) exSt = [Effect.setText "", Effect.setToolTip ""] :=
  (update_info_spec (fun s => s) exSt).2 (by decide)

theorem setVisible_mem_handle (st : CState) (el : String) (b : Bool) :
    Effect.setVisible el b ∈ handle_enabled_types st ↔
      (el = "audio.input" ∧ "audio.input" ∈ st.registry.allowed_types ∧
        b = is_type_enabled st "audio.input") ∨
      (el = "audio.output" ∧ b = false ∧ "audio.output" ∈ st.registry.allowed_types ∧
        is_type_enabled st "audio.output" = false) := by
  have hne : ("audio.output" == "audio.input") = false := by decide
  simp only [handle_enabled_types, List.mem_flatMap]
  constructor
  · rintro ⟨ty, hty, hmem⟩
    by_cases h1 : ty = "audio.input"
    · subst h1
      by_cases h2 : is_type_enabled st "audio.input"
      · simp only [beq_self_eq_true, if_true, h2] at hmem
        simp only [List.mem_singleton, Effect.setVisible.injEq] at hmem
        exact Or.inl ⟨hmem.1, hty, by rw [hmem.2, h2]⟩
      · rw [Bool.not_eq_true] at h2
        simp only [beq_self_eq_true, if_true, h2] at hmem
        simp only [Bool.false_eq_true, if_false, List.mem_singleton,
          Effect.setVisible.injEq] at hmem
        exact Or.inl ⟨hmem.1, hty, by rw [hmem.2, h2]⟩
    · by_cases h2 : ty = "audio.output"
      · subst h2
        simp only [hne, if_false, beq_self_eq_true, if_true] at hmem
        by_cases h3 : is_type_enabled st "audio.output"
        · simp [h3] at hmem
        · rw [Bool.not_eq_true] at h3
          simp only [h3, Bool.false_eq_true, if_false, List.mem_singleton,
            Effect.setVisible.injEq] at hmem
          exact Or.inr ⟨hmem.1, hmem.2, hty, h3⟩
      · have hb1 : (ty == "audio.input") = false := by
          simp [h1]
        have hb2 : (ty == "audio.output") = false := by
          simp [h2]
        simp [hb1, hb2] at hmem
  · rintro (⟨rfl, hmem, rfl⟩ | ⟨rfl, rfl, hmem, hdis⟩)
    · refine ⟨"audio.input", hmem, ?_⟩
      by_cases h : is_type_enabled st "audio.input" <;> simp [h]
    · refine ⟨"audio.output", hmem, ?_⟩
      simp [hne, hdis]

/-- C9: when the Registry recognizes the tags, `handle_enabled_types` shows
the `audio.input` element exactly when `is_type_enabled('audio.input')` and
hides it otherwise; for `audio.output` it never issues a show action and
issues a hide action exactly when `is_type_enabled('audio.output')` is
false. -/
theorem handle_enabled_types_spec (st : CState) :
    ("audio.input" ∈ st.registry.allowed_types →
      ((Effect.setVisible "audio.input" true ∈ handle_enabled_types st ↔
          is_type_enabled st "audio.input" = true) ∧
       (Effect.setVisible "audio.input" false ∈ handle_enabled_types st ↔
          is_type_enabled st "audio.input" = false))) ∧
    Effect.setVisible "audio.output" true ∉ handle_enabled_types st ∧
    ("audio.output" ∈ st.registry.allowed_types →
      (Effect.setVisible "audio.output" false ∈ handle_enabled_types st ↔
        is_type_enabled st "audio.output" = false)) := by
  have hio : ("audio.input" : String) ≠ "audio.output" := by decide
  have hoi : ("audio.output" : String) ≠ "audio.input" := by decide
  refine ⟨fun hin => ⟨?_, ?_⟩, ?_, fun hout => ?_⟩
  · rw [setVisible_mem_handle]
    constructor
    · rintro (⟨_, _, hb⟩ | ⟨h, _, _, _⟩)
      · exact hb.symm
      · exact absurd h hio
    · intro h
      exact Or.inl ⟨rfl, hin, h.symm⟩
  · rw [setVisible_mem_handle]
    constructor
    · rintro (⟨_, _, hb⟩ | ⟨h, _, _, _⟩)
      · exact hb.symm
      · exact absurd h hio
    · intro h
      exact Or.inl ⟨rfl, hin, h.symm⟩
  · rw [setVisible_mem_handle]
    rintro (⟨h, _, _⟩ | ⟨_, h, _, _⟩)
    · exact absurd h hoi
    · exact Bool.noConfusion h
  · rw [setVisible_mem_handle]
    constructor
    · rintro (⟨h, _, _⟩ | ⟨_, _, _, h⟩)
      · exact absurd h hoi
      · exact h
    · intro h
      exact Or.inr ⟨rfl, rfl, hout, h⟩

/-- C9 witness: on the example state with nothing enabled both audio addons
are hidden, and no show action for `audio.output` is ever present. -/
theorem handle_enabled_types_spec_witness :
    (Effect.setVisible "audio.input" false ∈ handle_enabled_types exSt ↔
      is_type_enabled exSt "audio.input" = false) ∧
    Effect.setVisible "audio.output" true ∉ handle_enabled_types exSt :=
  ⟨((handle_enabled_types_spec exSt).1 (by decide)).2, (handle_enabled_types_spec exSt).2.1⟩

/-! ### The reachability invariant: enabled entries are registered -/

theorem mem_dictSet (d : List (String × Bool)) (k : String) (v : Bool)
    (kv : String × Bool) (h : kv ∈ dictSet d k v) : kv = (k, v) ∨ kv ∈ d := by
  induction d with
  | nil => simpa [dictSet] using h
  | cons x t ih =>
    simp only [dictSet] at h
    split at h
    · rcases List.mem_cons.mp h with h | h
      · exact Or.inl h
      · exact Or.inr (List.mem_cons_of_mem _ h)
    · rcases List.mem_cons.mp h with h | h
      · exact Or.inr (h ▸ List.mem_cons_self _ _)
      · rcases ih h with h | h
        · exact Or.inl h
        · exact Or.inr (List.mem_cons_of_mem _ h)

theorem is_registered_unregister_ne (r : Registry) (id x : String) (hne : x ≠ id) :
    (r.unregister id).is_registered x = r.is_registered x := by
  simp only [Registry.unregister, Registry.is_registered]
  cases hr : r.plugins.any (fun p => p.id == x) with
  | true =>
    rw [List.any_eq_true] at hr
    obtain ⟨p, hp, hpx⟩ := hr
    rw [List.any_eq_true]
    refine ⟨p, List.mem_filter.mpr ⟨hp, ?_⟩, hpx⟩
    have hpid : p.id = x := by simpa using hpx
    simp [hpid, hne]
  | false =>
    rw [List.any_eq_false] at hr
    rw [List.any_eq_false]
    intro p hp
    exact hr p (List.mem_filter.mp hp).1

/-- The claimed invariant (§3 of the spec): every entry of the enabled
mapping belongs to a currently registered plugin id. -/
def Inv (st : CState) : Prop :=
  ∀ kv ∈ st.enabled, st.registry.is_registered kv.1 = true

theorem inv_enable (tr : String → String) (st : CState) (id : String) (h : Inv st) :
    Inv (enable tr st id).1 := by
  by_cases hreg : st.registry.is_registered id = true
  · have hst : (enable tr st id).1 = { st with enabled := dictSet st.enabled id true } := by
      simp [enable, hreg]
    rw [hst]
    intro kv hkv
    rcases mem_dictSet _ _ _ _ hkv with rfl | hkv'
    · exact hreg
    · exact h kv hkv'
  · rw [Bool.not_eq_true] at hreg
    have hst : (enable tr st id).1 = st := by simp [enable, hreg]
    rw [hst]
    exact h

theorem inv_disable (tr : String → String) (st : CState) (id : String) (h : Inv st) :
    Inv (disable tr st id).1 := by
  by_cases hreg : st.registry.is_registered id = true
  · have hst : (disable tr st id).1 = { st with enabled := dictSet st.enabled id false } := by
      simp [disable, hreg]
    rw [hst]
    intro kv hkv
    rcases mem_dictSet _ _ _ _ hkv with rfl | hkv'
    · exact hreg
    · exact h kv hkv'
  · rw [Bool.not_eq_true] at hreg
    have hst : (disable tr st id).1 = st := by simp [disable, hreg]
    rw [hst]
    exact h

theorem inv_toggle (tr : String → String) (st : CState) (id : String) (h : Inv st) :
    Inv (toggle tr st id).1 := by
  by_cases hreg : st.registry.is_registered id = true
  · by_cases hen : is_enabled st id = true
    · have hst : (toggle tr st id).1 = (disable tr st id).1 := by simp [toggle, hreg, hen]
      rw [hst]
      exact inv_disable tr st id h
    · rw [Bool.not_eq_true] at hen
      have hst : (toggle tr st id).1 = (enable tr st id).1 := by simp [toggle, hreg, hen]
      rw [hst]
      exact inv_enable tr st id h
  · rw [Bool.not_eq_true] at hreg
    have hst : (toggle tr st id).1 = st := by simp [toggle, hreg]
    rw [hst]
    exact h

theorem inv_unregister (st : CState) (id : String) (h : Inv st) :
    Inv (unregister st id).1 := by
  intro kv hkv
  rw [unregister_enabled_eq] at hkv
  unfold dictPop at hkv
  rw [List.mem_filter] at hkv
  have hne : kv.1 ≠ id := by simpa using hkv.2
  have hreg : (unregister st id).1.registry = st.registry.unregister id := rfl
  rw [hreg, is_registered_unregister_ne st.registry id kv.1 hne]
  exact h kv hkv.1

theorem inv_load_config_aux (tr : String → String) (cfg : List (String × Bool))
    (acc : CState × List Effect) (h : Inv acc.1) :
    Inv ((cfg.foldl
      (fun acc kv =>
        if kv.2 then
          let r := enable tr acc.1 kv.1
          (r.1, acc.2 ++ r.2)
        else acc)
      acc).1) := by
  induction cfg generalizing acc with
  | nil => exact h
  | cons kv t ih =>
    simp only [List.foldl_cons]
    by_cases hv : kv.2 = true
    · simp only [hv, if_true]
      exact ih _ (inv_enable tr acc.1 kv.1 h)
    · rw [Bool.not_eq_true] at hv
      simp only [hv, Bool.false_eq_true, if_false]
      exact ih _ h

theorem inv_load_config (tr : String → String) (st : CState)
    (cfg : List (String × Bool)) (h : Inv st) : Inv (load_config tr st cfg).1 := by
  unfold load_config
  exact inv_load_config_aux tr cfg (st, []) h

theorem inv_applyOp (tr : String → String) (st : CState) (op : Op) (h : Inv st) :
    Inv (applyOp tr st op).1 := by
  cases op with
  | enable id => exact inv_enable tr st id h
  | disable id => exact inv_disable tr st id h
  | toggle id => exact inv_toggle tr st id h
  | unregister id => exact inv_unregister st id h
  | load_config cfg => exact inv_load_config tr st cfg h

theorem inv_run (tr : String → String) (st : CState) (ops : List Op) (h : Inv st) :
    Inv (run tr st ops) := by
  induction ops generalizing st with
  | nil => exact h
  | cons op t ih =>
    simp only [run, List.foldl_cons]
    exact ih _ (inv_applyOp tr st op h)

/-- C6: in every state reachable by the controller's operations from the
freshly initialized controller, the enabled mapping only holds entries for
registered plugin ids; and `is_enabled` never returns true for an
unregistered id even when a stale entry exists. -/
theorem enabled_entries_registered (tr : String → String) (r : Registry)
    (menu : List String) (ops : List Op) :
    (∀ kv ∈ (run tr (initState r menu) ops).enabled,
        (run tr (initState r menu) ops).registry.is_registered kv.1 = true) ∧
    (∀ (st : CState) (id : String), st.registry.is_registered id = false →
        is_enabled st id = false) := by
  constructor
  · have h0 : Inv (initState r menu) := by
      intro kv hkv
      simp [initState] at hkv
    exact inv_run tr (initState r menu) ops h0
  · intro st id h
    simp [is_enabled, h]

/-- C6 witness: after enabling `p1` from the fresh state the only entry is
the registered `p1`; a state with a stale entry for the unregistered
`ghost` still reports it disabled. -/
theorem enabled_entries_registered_witness :
    (run (fun s => s) (initState exReg ["p1", "p2"]) [Op.enable "p1"]).registry.is_registered
      "p1" = true ∧
    is_enabled { registry := exReg, enabled := [("ghost", true)], menu := [] } "ghost" =
      false :=
  ⟨(enabled_entries_registered (fun s => s) exReg ["p1", "p2"] [Op.enable "p1"]).1
      ("p1", true) (by decide),
   (enabled_entries_registered (fun s => s) exReg ["p1", "p2"] [Op.enable "p1"]).2
      { registry := exReg, enabled := [("ghost", true)], menu := [] } "ghost" (by decide)⟩

end PyGpt
